import Mathlib

/-!
Shallow embedding of the SafelyYou fleet-statistics core.

Go sources embedded here:
  * `internal/core/domain/device.go` — the `DeviceStats` record and its two
    pure derivation functions `UptimePercent` and `AvgUploadDuration`;
  * the in-memory `DeviceRepository` (`LoadFromCSV`, `addDevice`, `Count`,
    `WithDevice`, `Exists`, `GetSnapshot`);
  * `internal/core/services/device_service.go` — `RecordHeartbeat` and
    `RecordStats`.

Modelling conventions:
  * `time.Time` values are nanoseconds since the epoch, as `Int`
    (`t.Before u` is `t < u`, `t.After u` is `t > u`, `t.Sub u` is `t - u`);
  * `time.Duration` and the `int64` counters are `Int` (the claims under
    study never approach the 64-bit range, so wrap-around is immaterial);
  * Go `float64` arithmetic in `UptimePercent` is modelled exactly over `ℚ`;
  * Go integer division truncates toward zero, which is `Int.tdiv`;
  * the repository map guarded by its lock is an association list acted on by
    one operation at a time (the lock serialises every critical section, so
    sequential application of operations is the store's observable behaviour);
  * Go errors are explicit: `CoreError` for the repository and service
    errors, and `WithDevice` is polymorphic in the error type of its callback
    exactly as the Go callback may return any `error`.
-/

namespace SafelyYou

/-- Per-device aggregate record, from `domain.DeviceStats`. -/
structure DeviceStats where
  id : String
  firstHeartbeat : Int
  lastHeartbeat : Int
  heartbeatCount : Int
  uploadCount : Int
  uploadSumMs : Int
deriving DecidableEq, Repr

/-- Fresh record for a device, from `domain.NewDeviceStats`: Go zero values
for every field other than the identifier (the zero `time.Time` is modelled
as instant 0). -/
def NewDeviceStats (id : String) : DeviceStats :=
  { id := id
    firstHeartbeat := 0
    lastHeartbeat := 0
    heartbeatCount := 0
    uploadCount := 0
    uploadSumMs := 0 }

/-- Nanoseconds in a minute, the divisor inside Go `Duration.Minutes`. -/
def nsPerMinute : ℚ := 60000000000

/-- Uptime metric, from `domain.DeviceStats.UptimePercent`; Go float64
arithmetic modelled exactly over `ℚ`. -/
def UptimePercent (d : DeviceStats) : ℚ :=
  if d.heartbeatCount = 0 then 0
  else
    let window : Int := d.lastHeartbeat - d.firstHeartbeat
    let minutes : ℚ := (window : ℚ) / nsPerMinute
    let minutes : ℚ := if minutes ≤ 0 then 1 else minutes
    ((d.heartbeatCount : ℚ) / minutes) * 100

/-- Average upload duration, from `domain.DeviceStats.AvgUploadDuration`.
Go `/` on `int64` truncates toward zero, i.e. `Int.tdiv`. -/
def AvgUploadDuration (d : DeviceStats) : Int :=
  if d.uploadCount = 0 then 0
  else
    let avgNs := Int.tdiv d.uploadSumMs d.uploadCount
    if avgNs < 0 then 0 else avgNs

/-- Uptime metric as the specification words it: the window in minutes is
`lastHeartbeat - firstHeartbeat`, replaced by exactly 1 when that window
is ≤ 0; result is `(heartbeatCount / windowMinutes) * 100`. Stated for
comparison against the source-derived `UptimePercent`. -/
def uptimePercentSpec (d : DeviceStats) : ℚ :=
  if d.heartbeatCount = 0 then 0
  else
    let windowMinutes : ℚ :=
      if d.lastHeartbeat - d.firstHeartbeat ≤ 0 then 1
      else ((d.lastHeartbeat - d.firstHeartbeat : Int) : ℚ) / nsPerMinute
    ((d.heartbeatCount : ℚ) / windowMinutes) * 100

/-- Average upload duration as the specification words it: floor division
(`Int.fdiv`) of the sum by the count, negative results clamped to zero.
Stated for comparison against the source-derived `AvgUploadDuration`. -/
def avgUploadDurationSpec (d : DeviceStats) : Int :=
  if d.uploadCount = 0 then 0
  else
    let avg := Int.fdiv d.uploadSumMs d.uploadCount
    if avg < 0 then 0 else avg

/-- Error values crossing the repository/service boundary:
`coreerrors.ErrDeviceNotFound`, and ad-hoc `fmt.Errorf` errors carried by
their message. -/
inductive CoreError where
  | deviceNotFound : CoreError
  | fmtError (msg : String) : CoreError
deriving DecidableEq, Repr

/-- Contents of the repository map `devices : map[string]*DeviceStats`,
as an association list (insertion order; keys unique by construction). -/
abbrev Store := List (String × DeviceStats)

/-- Map lookup `r.devices[id]`. -/
def lookup {α : Type} : List (String × α) → String → Option α
  | [], _ => none
  | (k, v) :: rest, id => if k = id then some v else lookup rest id

/-- Map assignment `r.devices[id] = v` for a key already present: replaces
the value stored at `id`, keeping every other entry. -/
def setRecord : Store → String → DeviceStats → Store
  | [], _, _ => []
  | (k, v) :: rest, id, d => if k = id then (k, d) :: rest else (k, v) :: setRecord rest id d

/-- Membership test, from `DeviceRepository.Exists`. -/
def existsDevice (s : Store) (id : String) : Bool :=
  (lookup s id).isSome

/-- Number of registered devices, from `DeviceRepository.Count`
(`len(r.devices)`). -/
def Count (s : Store) : Nat :=
  s.length

/-- Registration step, from `DeviceRepository.addDevice`: insert a fresh
zero-valued record unless the identifier already has one. -/
def addDevice (s : Store) (id : String) : Store :=
  if existsDevice s id then s else s ++ [(id, NewDeviceStats id)]

/-- Row loop of `DeviceRepository.LoadFromCSV`: each non-empty row's first
field is registered via `addDevice`; empty rows are skipped. -/
def loadRows (s : Store) (rows : List (List String)) : Store :=
  rows.foldl (fun st row =>
    match row with
    | [] => st
    | id :: _ => addDevice st id) s

/-- Bulk bootstrap, from `DeviceRepository.LoadFromCSV`: the row at index 0
(the header) is skipped, the remaining rows are registered. File-system and
CSV-parse failures are I/O concerns outside this embedding. -/
def LoadFromCSV (s : Store) (rows : List (List String)) : Store :=
  loadRows s rows.tail

/-- Atomic read-modify-write, from `DeviceRepository.WithDevice`: look up the
record for `id`, auto-creating a fresh zero-valued record when absent, run
the callback on it, store the callback's record, and return the callback's
error verbatim. The callback is modelled as returning the mutated record
together with its Go `error`; the mutation persists even when the callback
also returns an error, exactly as in Go where `fn` mutates the record in
place before returning. -/
def WithDevice {ε : Type} (s : Store) (id : String) (fn : DeviceStats → DeviceStats × Option ε) :
    Store × Option ε :=
  match lookup s id with
  | some d =>
      let r := fn d
      (setRecord s id r.1, r.2)
  | none =>
      let r := fn (NewDeviceStats id)
      (s ++ [(id, r.1)], r.2)

/-- Snapshot read, from `DeviceRepository.GetSnapshot`: `ErrDeviceNotFound`
when the identifier has no record, otherwise the record's current value. -/
def GetSnapshot (s : Store) (id : String) : Except CoreError DeviceStats :=
  match lookup s id with
  | none => Except.error CoreError.deviceNotFound
  | some d => Except.ok d

/-- Heartbeat callback body of `DeviceServiceImpl.RecordHeartbeat`: widen
`firstHeartbeat`/`lastHeartbeat` to include `sentAt` (min/max semantics,
both set on the very first heartbeat), then increment `heartbeatCount`. -/
def hbUpdate (sentAt : Int) (d : DeviceStats) : DeviceStats :=
  let d := if d.heartbeatCount = 0 ∨ sentAt < d.firstHeartbeat then
      { d with firstHeartbeat := sentAt } else d
  let d := if d.heartbeatCount = 0 ∨ sentAt > d.lastHeartbeat then
      { d with lastHeartbeat := sentAt } else d
  { d with heartbeatCount := d.heartbeatCount + 1 }

/-- Service operation, from `DeviceServiceImpl.RecordHeartbeat`: reject
unknown identifiers with `ErrDeviceNotFound` before touching the store,
otherwise apply `hbUpdate` under `WithDevice`. -/
def RecordHeartbeat (s : Store) (id : String) (sentAt : Int) : Store × Option CoreError :=
  if !existsDevice s id then (s, some CoreError.deviceNotFound)
  else WithDevice s id (fun d => (hbUpdate sentAt d, none))

/-- Upload-report callback body of `DeviceServiceImpl.RecordStats`:
increment `uploadCount` and add the reported duration to `uploadSumMs`. -/
def statsUpdate (uploadMs : Int) (d : DeviceStats) : DeviceStats :=
  { d with uploadCount := d.uploadCount + 1, uploadSumMs := d.uploadSumMs + uploadMs }

/-- Service operation, from `DeviceServiceImpl.RecordStats`: reject a
negative duration first, then unknown identifiers, then apply `statsUpdate`
under `WithDevice`. The `sentAt` argument is accepted and never used,
exactly as in the Go source. -/
def RecordStats (s : Store) (id : String) (sentAt : Int) (uploadMs : Int) :
    Store × Option CoreError :=
  if uploadMs < 0 then (s, some (CoreError.fmtError "upload_time must be >= 0"))
  else if !existsDevice s id then (s, some CoreError.deviceNotFound)
  else WithDevice s id (fun d => (statsUpdate uploadMs d, none))

/-- Repeated heartbeat recording for one device, the shape exercised by the
heartbeat endpoint: one `RecordHeartbeat` per timestamp, in list order. -/
def applyHeartbeats (s : Store) (id : String) (ts : List Int) : Store :=
  ts.foldl (fun st t => (RecordHeartbeat st id t).1) s

/-- Operations that can reach a store state in the running system. -/
inductive Op where
  | load (rows : List (List String)) : Op
  | heartbeat (id : String) (sentAt : Int) : Op
  | stats (id : String) (sentAt : Int) (uploadMs : Int) : Op
  | snapshot (id : String) : Op

/-- State transition of a single operation (`GetSnapshot` reads under the
shared lock and never writes). -/
def applyOp (s : Store) : Op → Store
  | Op.load rows => LoadFromCSV s rows
  | Op.heartbeat id t => (RecordHeartbeat s id t).1
  | Op.stats id t u => (RecordStats s id t u).1
  | Op.snapshot _ => s

/-- Store reached from the empty repository (`NewDeviceRepository`) by a
sequence of operations. -/
def runOps (ops : List Op) : Store :=
  ops.foldl applyOp []

/-- Record that `WithDevice` hands to its callback: the stored record when
present, a fresh zero-valued one otherwise. -/
def recordFor (s : Store) (id : String) : DeviceStats :=
  (lookup s id).getD (NewDeviceStats id)

/-- Record-level effect of a run of heartbeats on one record. -/
def hbFold (d : DeviceStats) (ts : List Int) : DeviceStats :=
  ts.foldl (fun d t => hbUpdate t d) d

/-- Documented invariant of `DeviceStats` records held in the store. -/
def StoreInv (s : Store) : Prop :=
  ∀ id d, lookup s id = some d → 0 < d.heartbeatCount → d.firstHeartbeat ≤ d.lastHeartbeat

/-- Pointer-level model of the repository, used for the snapshot-copy
behaviour: Go pointers `*DeviceStats` are addresses into a heap of record
cells, and the map `devices` stores each device's address. The functional
`Store` model above is this model with the pointer indirection elided. -/
structure PtrRepo where
  heap : List DeviceStats
  devices : List (String × Nat)

/-- Well-formedness of a pointer-level repository: every mapped address
points into the heap (every `*DeviceStats` in the Go map is a valid
pointer). -/
def PtrRepo.WF (r : PtrRepo) : Prop :=
  ∀ p ∈ r.devices, p.2 < r.heap.length

/-- Pointer-level `DeviceRepository.GetSnapshot`: look up the record's
address, then `deviceCopy := *deviceStats; return &deviceCopy` — copy the
pointed-to record into a freshly allocated cell and return that fresh
cell's address. A dangling address, impossible in a well-formed repository,
is mapped to the NotFound error. -/
def PtrRepo.getSnapshot (r : PtrRepo) (id : String) : PtrRepo × Except CoreError Nat :=
  match lookup r.devices id with
  | none => (r, Except.error CoreError.deviceNotFound)
  | some addr =>
    match r.heap[addr]? with
    | none => (r, Except.error CoreError.deviceNotFound)
    | some d => (⟨r.heap ++ [d], r.devices⟩, Except.ok r.heap.length)

/-- Heap write through a pointer: a caller holding address `a` assigns a new
value to the record it points to. -/
def PtrRepo.writeCell (r : PtrRepo) (a : Nat) (v : DeviceStats) : PtrRepo :=
  ⟨r.heap.set a v, r.devices⟩

/-! Basic lemmas about `lookup`, `setRecord` and `WithDevice`. -/

theorem lookup_append_some {α : Type} {l1 : List (String × α)} (l2 : List (String × α))
    {id : String} {v : α} (h : lookup l1 id = some v) :
    lookup (l1 ++ l2) id = some v := by
  induction l1 with
  | nil => simp [lookup] at h
  | cons p rest ih =>
      obtain ⟨k, w⟩ := p
      simp only [lookup, List.cons_append] at h ⊢
      by_cases hk : k = id
      · simpa [hk] using h
      · simp only [hk, if_false] at h ⊢
        exact ih h

theorem lookup_append_none {α : Type} {l1 : List (String × α)} (l2 : List (String × α))
    {id : String} (h : lookup l1 id = none) :
    lookup (l1 ++ l2) id = lookup l2 id := by
  induction l1 with
  | nil => simp [lookup]
  | cons p rest ih =>
      obtain ⟨k, w⟩ := p
      simp only [lookup, List.cons_append] at h ⊢
      by_cases hk : k = id
      · simp [hk] at h
      · simp only [hk, if_false] at h ⊢
        exact ih h

theorem lookup_singleton {α : Type} (k id : String) (v : α) :
    lookup [(k, v)] id = if k = id then some v else none := by
  simp [lookup]

theorem lookup_setRecord_self {s : Store} {id : String} {d : DeviceStats} (v : DeviceStats)
    (h : lookup s id = some d) :
    lookup (setRecord s id v) id = some v := by
  induction s with
  | nil => simp [lookup] at h
  | cons p rest ih =>
      obtain ⟨k, w⟩ := p
      simp only [lookup, setRecord] at h ⊢
      by_cases hk : k = id
      · simp [hk, lookup]
      · simp only [hk, if_false, lookup] at h ⊢
        exact ih h

theorem lookup_setRecord_ne {s : Store} {id id2 : String} (v : DeviceStats)
    (h : id2 ≠ id) :
    lookup (setRecord s id v) id2 = lookup s id2 := by
  induction s with
  | nil => simp [lookup, setRecord]
  | cons p rest ih =>
      obtain ⟨k, w⟩ := p
      simp only [setRecord]
      by_cases hk : k = id
      · subst hk
        simp only [if_pos rfl, lookup]
        have hne : ¬ k = id2 := fun hc => h hc.symm
        simp [hne]
      · simp only [hk, if_false, lookup]
        by_cases hk2 : k = id2
        · simp [hk2]
        · simp [hk2, ih]

theorem WithDevice_err {ε : Type} (s : Store) (id : String)
    (fn : DeviceStats → DeviceStats × Option ε) :
    (WithDevice s id fn).2 = (fn (recordFor s id)).2 := by
  unfold WithDevice recordFor
  cases h : lookup s id <;> simp [h]

theorem WithDevice_lookup {ε : Type} (s : Store) (id id2 : String)
    (fn : DeviceStats → DeviceStats × Option ε) :
    lookup (WithDevice s id fn).1 id2 =
      if id2 = id then some (fn (recordFor s id)).1 else lookup s id2 := by
  unfold WithDevice recordFor
  cases h : lookup s id with
  | some d =>
      simp only [h, Option.getD_some]
      by_cases hid : id2 = id
      · subst hid
        simp [lookup_setRecord_self (fn d).1 h]
      · simp [hid, lookup_setRecord_ne _ hid]
  | none =>
      simp only [h, Option.getD_none]
      by_cases hid : id2 = id
      · subst hid
        simp [lookup_append_none _ h, lookup_singleton]
      · have hne : ¬ id = id2 := fun hc => hid hc.symm
        by_cases h2 : lookup s id2 = none
        · rw [lookup_append_none _ h2, lookup_singleton, if_neg hne, if_neg hid, h2]
        · obtain ⟨v, hv⟩ := Option.ne_none_iff_exists.mp h2
          rw [lookup_append_some _ hv.symm, if_neg hid]
          exact hv

/-! Heartbeat update lemmas. -/

theorem existsDevice_eq_true_of_lookup {s : Store} {id : String} {d : DeviceStats}
    (h : lookup s id = some d) : existsDevice s id = true := by
  simp [existsDevice, h]

theorem hbUpdate_eq (t : Int) (d : DeviceStats) :
    hbUpdate t d =
      { d with
        firstHeartbeat :=
          if d.heartbeatCount = 0 ∨ t < d.firstHeartbeat then t else d.firstHeartbeat,
        lastHeartbeat :=
          if d.heartbeatCount = 0 ∨ t > d.lastHeartbeat then t else d.lastHeartbeat,
        heartbeatCount := d.heartbeatCount + 1 } := by
  by_cases h1 : d.heartbeatCount = 0 ∨ t < d.firstHeartbeat <;>
    by_cases h2 : d.heartbeatCount = 0 ∨ t > d.lastHeartbeat <;>
      simp [hbUpdate, h1, h2]

theorem hbUpdate_heartbeatCount (t : Int) (d : DeviceStats) :
    (hbUpdate t d).heartbeatCount = d.heartbeatCount + 1 := by
  rw [hbUpdate_eq]

theorem hbUpdate_of_count_zero (t : Int) (d : DeviceStats) (h : d.heartbeatCount = 0) :
    hbUpdate t d =
      { d with firstHeartbeat := t, lastHeartbeat := t,
               heartbeatCount := d.heartbeatCount + 1 } := by
  rw [hbUpdate_eq, if_pos (Or.inl h), if_pos (Or.inl h)]

theorem hbUpdate_of_count_ne_zero (t : Int) (d : DeviceStats) (h : d.heartbeatCount ≠ 0) :
    (hbUpdate t d).firstHeartbeat = min d.firstHeartbeat t ∧
    (hbUpdate t d).lastHeartbeat = max d.lastHeartbeat t := by
  rw [hbUpdate_eq]
  constructor
  · show (if d.heartbeatCount = 0 ∨ t < d.firstHeartbeat then t else d.firstHeartbeat) = _
    split_ifs with hc
    · rcases hc with hc | hc
      · exact absurd hc h
      · omega
    · push_neg at hc
      omega
  · show (if d.heartbeatCount = 0 ∨ t > d.lastHeartbeat then t else d.lastHeartbeat) = _
    split_ifs with hc
    · rcases hc with hc | hc
      · exact absurd hc h
      · omega
    · push_neg at hc
      omega

theorem hbUpdate_upload_fields (t : Int) (d : DeviceStats) :
    (hbUpdate t d).uploadCount = d.uploadCount ∧
    (hbUpdate t d).uploadSumMs = d.uploadSumMs ∧ (hbUpdate t d).id = d.id := by
  rw [hbUpdate_eq]
  exact ⟨rfl, rfl, rfl⟩

theorem hbFold_count (ts : List Int) :
    ∀ d : DeviceStats, (hbFold d ts).heartbeatCount = d.heartbeatCount + ts.length := by
  induction ts with
  | nil => intro d; simp [hbFold]
  | cons t ts ih =>
      intro d
      show (hbFold (hbUpdate t d) ts).heartbeatCount = _
      rw [ih, hbUpdate_heartbeatCount]
      simp only [List.length_cons]
      push_cast
      ring

theorem hbFold_minmax (ts : List Int) :
    ∀ d : DeviceStats, 0 < d.heartbeatCount →
      (hbFold d ts).firstHeartbeat = ts.foldl min d.firstHeartbeat ∧
      (hbFold d ts).lastHeartbeat = ts.foldl max d.lastHeartbeat := by
  induction ts with
  | nil => intro d _; exact ⟨rfl, rfl⟩
  | cons t ts ih =>
      intro d hd
      have hne : d.heartbeatCount ≠ 0 := by omega
      obtain ⟨h1, h2⟩ := hbUpdate_of_count_ne_zero t d hne
      have hpos : 0 < (hbUpdate t d).heartbeatCount := by
        rw [hbUpdate_heartbeatCount]; omega
      obtain ⟨ih1, ih2⟩ := ih (hbUpdate t d) hpos
      refine ⟨?_, ?_⟩
      · show (hbFold (hbUpdate t d) ts).firstHeartbeat = ts.foldl min (min d.firstHeartbeat t)
        rw [ih1, h1]
      · show (hbFold (hbUpdate t d) ts).lastHeartbeat = ts.foldl max (max d.lastHeartbeat t)
        rw [ih2, h2]

theorem RecordHeartbeat_lookup_self {s : Store} {id : String} {d : DeviceStats} (t : Int)
    (h : lookup s id = some d) :
    lookup (RecordHeartbeat s id t).1 id = some (hbUpdate t d) := by
  unfold RecordHeartbeat
  rw [existsDevice_eq_true_of_lookup h]
  simp only [Bool.not_true, Bool.false_eq_true, if_false]
  rw [WithDevice_lookup, if_pos rfl, recordFor, h, Option.getD_some]

theorem applyHeartbeats_lookup (ts : List Int) :
    ∀ (s : Store) (id : String) (d : DeviceStats), lookup s id = some d →
      lookup (applyHeartbeats s id ts) id = some (hbFold d ts) := by
  induction ts with
  | nil => intro s id d h; exact h
  | cons t ts ih =>
      intro s id d h
      show lookup (applyHeartbeats (RecordHeartbeat s id t).1 id ts) id = _
      exact ih _ id (hbUpdate t d) (RecordHeartbeat_lookup_self t h)

/-! Fold-min and fold-max facts. -/

theorem foldl_min_le_init (ts : List Int) : ∀ a : Int, ts.foldl min a ≤ a := by
  induction ts with
  | nil => intro a; exact le_refl a
  | cons t ts ih =>
      intro a
      exact le_trans (ih (min a t)) (min_le_left a t)

theorem foldl_min_le_mem (ts : List Int) :
    ∀ (a t : Int), t ∈ ts → ts.foldl min a ≤ t := by
  induction ts with
  | nil => intro a t h; simp at h
  | cons u ts ih =>
      intro a t h
      rcases List.mem_cons.mp h with h | h
      · subst h
        exact le_trans (foldl_min_le_init ts (min a t)) (min_le_right a t)
      · exact ih (min a u) t h

theorem foldl_min_mem_cons (ts : List Int) :
    ∀ a : Int, ts.foldl min a = a ∨ ts.foldl min a ∈ ts := by
  induction ts with
  | nil => intro a; exact Or.inl rfl
  | cons t ts ih =>
      intro a
      rcases ih (min a t) with h | h
      · rcases min_choice a t with hm | hm
        · exact Or.inl (h.trans hm)
        · exact Or.inr (List.mem_cons.mpr (Or.inl (h.trans hm)))
      · exact Or.inr (List.mem_cons.mpr (Or.inr h))

theorem foldl_max_init_le (ts : List Int) : ∀ a : Int, a ≤ ts.foldl max a := by
  induction ts with
  | nil => intro a; exact le_refl a
  | cons t ts ih =>
      intro a
      exact le_trans (le_max_left a t) (ih (max a t))

theorem foldl_max_mem_le (ts : List Int) :
    ∀ (a t : Int), t ∈ ts → t ≤ ts.foldl max a := by
  induction ts with
  | nil => intro a t h; simp at h
  | cons u ts ih =>
      intro a t h
      rcases List.mem_cons.mp h with h | h
      · subst h
        exact le_trans (le_max_right a t) (foldl_max_init_le ts (max a t))
      · exact ih (max a u) t h

theorem foldl_max_mem_cons (ts : List Int) :
    ∀ a : Int, ts.foldl max a = a ∨ ts.foldl max a ∈ ts := by
  induction ts with
  | nil => intro a; exact Or.inl rfl
  | cons t ts ih =>
      intro a
      rcases ih (max a t) with h | h
      · rcases max_choice a t with hm | hm
        · exact Or.inl (h.trans hm)
        · exact Or.inr (List.mem_cons.mpr (Or.inl (h.trans hm)))
      · exact Or.inr (List.mem_cons.mpr (Or.inr h))

/-! Division and clamp helpers for the derived metrics. -/

theorem ite_neg_zero_eq_max (x : Int) : (if x < 0 then 0 else x) = max 0 x := by
  split_ifs with h <;> omega

theorem max_tdiv_eq_max_fdiv (a b : Int) : max 0 (Int.tdiv a b) = max 0 (Int.fdiv a b) := by
  rcases a with m | m <;> rcases b with n | n
  · rw [Int.ofNat_eq_natCast, Int.ofNat_eq_natCast,
      Int.fdiv_eq_tdiv (Int.natCast_nonneg m) (Int.natCast_nonneg n)]
  · rw [Int.ofNat_eq_natCast]
    have h1 : Int.tdiv (m : Int) (Int.negSucc n) ≤ 0 :=
      Int.tdiv_nonpos (Int.natCast_nonneg m) (le_of_lt (Int.negSucc_lt_zero n))
    have h2 : Int.fdiv (m : Int) (Int.negSucc n) ≤ 0 :=
      Int.fdiv_nonpos (Int.natCast_nonneg m) (le_of_lt (Int.negSucc_lt_zero n))
    omega
  · rw [Int.ofNat_eq_natCast]
    rcases Nat.eq_zero_or_pos n with hn | hn
    · subst hn
      rw [show ((0 : Nat) : Int) = 0 from rfl, Int.tdiv_zero, Int.fdiv_zero]
    · have h1 : Int.tdiv (Int.negSucc m) (n : Int) ≤ 0 := by
        have heq : Int.negSucc m = -((m + 1 : Nat) : Int) := rfl
        rw [heq, Int.neg_tdiv]
        have := Int.tdiv_nonneg (Int.natCast_nonneg (m + 1)) (Int.natCast_nonneg n)
        omega
      have h2 : Int.fdiv (Int.negSucc m) (n : Int) ≤ 0 :=
        le_of_lt (Int.fdiv_neg' (Int.negSucc_lt_zero m) (by exact_mod_cast hn))
      omega
  · show max 0 (Int.ofNat ((m + 1) / (n + 1))) = max 0 (Int.ofNat ((m + 1) / (n + 1)))
    rfl

theorem div_nsPerMinute_nonpos_iff (w : Int) :
    ((w : ℚ) / nsPerMinute ≤ 0) ↔ w ≤ 0 := by
  have hpos : (0 : ℚ) < nsPerMinute := by norm_num [nsPerMinute]
  rw [div_le_iff₀ hpos, zero_mul]
  exact_mod_cast Iff.rfl

/-! Claim theorems. -/

/-- C1: `UptimePercent` returns 0 when `heartbeatCount == 0`; otherwise it
is `(heartbeatCount / windowMinutes) * 100` with the window
`lastHeartbeat - firstHeartbeat` in minutes replaced by exactly 1 when it
is ≤ 0 (in which case the result is `heartbeatCount * 100`); the result is
not clamped at 100 and can exceed it. -/
theorem uptimePercent_formula (d : DeviceStats) :
    UptimePercent d = uptimePercentSpec d ∧
    (d.heartbeatCount = 0 → UptimePercent d = 0) ∧
    (d.heartbeatCount ≠ 0 → d.lastHeartbeat - d.firstHeartbeat ≤ 0 →
      UptimePercent d = (d.heartbeatCount : ℚ) * 100) ∧
    (∃ d2 : DeviceStats, 100 < UptimePercent d2) := by
  refine ⟨?_, ?_, ?_, ?_⟩
  · unfold UptimePercent uptimePercentSpec
    by_cases h0 : d.heartbeatCount = 0
    · simp [h0]
    · simp only [h0, if_false]
      by_cases hw : d.lastHeartbeat - d.firstHeartbeat ≤ 0
      · rw [if_pos ((div_nsPerMinute_nonpos_iff _).mpr hw), if_pos hw]
      · rw [if_neg (fun hc => hw ((div_nsPerMinute_nonpos_iff _).mp hc)), if_neg hw]
  · intro h0
    unfold UptimePercent
    simp [h0]
  · intro h0 hw
    unfold UptimePercent
    simp only [h0, if_false]
    rw [if_pos ((div_nsPerMinute_nonpos_iff _).mpr hw), div_one]
  · refine ⟨⟨"dense", 0, 0, 10, 0, 0⟩, ?_⟩
    unfold UptimePercent
    norm_num [nsPerMinute]

/-- C1 witness: a record with two heartbeats over a degenerate window
evaluates to `2 * 100`. -/
theorem uptimePercent_formula_witness :
    UptimePercent ⟨"w", 5, 5, 2, 0, 0⟩ = (2 : ℚ) * 100 :=
  (uptimePercent_formula ⟨"w", 5, 5, 2, 0, 0⟩).2.2.1 (by norm_num) (by norm_num)

/-- C2: `AvgUploadDuration` returns a zero duration when `uploadCount == 0`;
otherwise it is the floor division of `uploadSumMs` by `uploadCount` with a
negative average clamped to zero. (The Go source divides with truncation
toward zero, but after the clamp that agrees with floor division on every
input.) -/
theorem avgUploadDuration_formula (d : DeviceStats) :
    AvgUploadDuration d = avgUploadDurationSpec d ∧
    (d.uploadCount = 0 → AvgUploadDuration d = 0) ∧
    (d.uploadCount ≠ 0 →
      AvgUploadDuration d = max 0 (Int.fdiv d.uploadSumMs d.uploadCount)) := by
  have key : AvgUploadDuration d = avgUploadDurationSpec d := by
    unfold AvgUploadDuration avgUploadDurationSpec
    by_cases h0 : d.uploadCount = 0
    · simp [h0]
    · simp only [h0, if_false]
      rw [ite_neg_zero_eq_max, ite_neg_zero_eq_max]
      exact max_tdiv_eq_max_fdiv _ _
  refine ⟨key, ?_, ?_⟩
  · intro h0
    unfold AvgUploadDuration
    simp [h0]
  · intro h0
    rw [key]
    unfold avgUploadDurationSpec
    simp only [h0, if_false]
    exact ite_neg_zero_eq_max _

/-- C2 witness: two uploads of 30s and 90s average to exactly one minute
(values in nanoseconds). -/
theorem avgUploadDuration_formula_witness :
    AvgUploadDuration ⟨"w", 0, 0, 0, 2, 120000000000⟩ =
      max 0 (Int.fdiv 120000000000 2) :=
  (avgUploadDuration_formula ⟨"w", 0, 0, 0, 2, 120000000000⟩).2.2 (by norm_num)

/-- C3: applying any non-empty sequence of heartbeat timestamps to a
registered device (a device holding a fresh zero-valued record) yields a
record whose `firstHeartbeat` is the minimum of the applied timestamps,
whose `lastHeartbeat` is their maximum, and whose `heartbeatCount` is the
number of heartbeats applied, whatever the arrival order. -/
theorem recordHeartbeat_minmax (s : Store) (id : String) (t0 : Int) (ts : List Int)
    (h : lookup s id = some (NewDeviceStats id)) :
    ∃ d : DeviceStats,
      lookup (applyHeartbeats s id (t0 :: ts)) id = some d ∧
      d.heartbeatCount = ((t0 :: ts).length : Int) ∧
      d.firstHeartbeat ∈ t0 :: ts ∧ (∀ t ∈ t0 :: ts, d.firstHeartbeat ≤ t) ∧
      d.lastHeartbeat ∈ t0 :: ts ∧ (∀ t ∈ t0 :: ts, t ≤ d.lastHeartbeat) := by
  have hl := applyHeartbeats_lookup (t0 :: ts) s id (NewDeviceStats id) h
  refine ⟨hbFold (NewDeviceStats id) (t0 :: ts), hl, ?_, ?_, ?_, ?_, ?_⟩
  · rw [hbFold_count]
    show (NewDeviceStats id).heartbeatCount + _ = _
    simp [NewDeviceStats]
  all_goals {
    have hstep : hbFold (NewDeviceStats id) (t0 :: ts) = hbFold (hbUpdate t0 (NewDeviceStats id)) ts := rfl
    have hzero : (NewDeviceStats id).heartbeatCount = 0 := rfl
    have hd1 := hbUpdate_of_count_zero t0 (NewDeviceStats id) hzero
    have hpos : 0 < (hbUpdate t0 (NewDeviceStats id)).heartbeatCount := by
      rw [hbUpdate_heartbeatCount, hzero]
      omega
    obtain ⟨hmin, hmax⟩ := hbFold_minmax ts (hbUpdate t0 (NewDeviceStats id)) hpos
    have hf1 : (hbUpdate t0 (NewDeviceStats id)).firstHeartbeat = t0 := by rw [hd1]
    have hl1 : (hbUpdate t0 (NewDeviceStats id)).lastHeartbeat = t0 := by rw [hd1]
    rw [hstep]
    first
    | { rw [hmin, hf1]
        rcases foldl_min_mem_cons ts t0 with hc | hc
        · exact List.mem_cons.mpr (Or.inl hc)
        · exact List.mem_cons.mpr (Or.inr hc) }
    | { rw [hmin, hf1]
        intro t ht
        rcases List.mem_cons.mp ht with ht | ht
        · subst ht
          exact foldl_min_le_init ts t
        · exact foldl_min_le_mem ts t0 t ht }
    | { rw [hmax, hl1]
        rcases foldl_max_mem_cons ts t0 with hc | hc
        · exact List.mem_cons.mpr (Or.inl hc)
        · exact List.mem_cons.mpr (Or.inr hc) }
    | { rw [hmax, hl1]
        intro t ht
        rcases List.mem_cons.mp ht with ht | ht
        · subst ht
          exact foldl_max_init_le ts t
        · exact foldl_max_mem_le ts t0 t ht }
  }

/-- C3 witness: heartbeats 7, 3, 9 on a registered device give count 3,
first 3 and last 9. -/
theorem recordHeartbeat_minmax_witness :
    ∃ d : DeviceStats,
      lookup (applyHeartbeats [("dev", NewDeviceStats "dev")] "dev" (7 :: [3, 9])) "dev" = some d ∧
      d.heartbeatCount = ((7 :: [3, 9] : List Int).length : Int) ∧
      d.firstHeartbeat ∈ 7 :: [3, 9] ∧ (∀ t ∈ 7 :: [3, 9], d.firstHeartbeat ≤ t) ∧
      d.lastHeartbeat ∈ 7 :: [3, 9] ∧ (∀ t ∈ 7 :: [3, 9], t ≤ d.lastHeartbeat) :=
  recordHeartbeat_minmax [("dev", NewDeviceStats "dev")] "dev" 7 [3, 9] (by
    simp [lookup])

/-! Invariant-preservation lemmas. -/

theorem hbUpdate_window (t : Int) (d : DeviceStats) :
    (hbUpdate t d).firstHeartbeat ≤ (hbUpdate t d).lastHeartbeat := by
  rw [hbUpdate_eq]
  show (if d.heartbeatCount = 0 ∨ t < d.firstHeartbeat then t else d.firstHeartbeat) ≤
    (if d.heartbeatCount = 0 ∨ t > d.lastHeartbeat then t else d.lastHeartbeat)
  split_ifs with h1 h2 h2
  · exact le_refl t
  · push_neg at h2
    exact h2.2
  · push_neg at h1
    exact h1.2
  · push_neg at h1 h2
    exact le_trans h1.2 h2.2

theorem StoreInv_empty : StoreInv [] := by
  intro id d h
  simp [lookup] at h

theorem StoreInv_WithDevice {ε : Type} {s : Store} (id : String)
    (fn : DeviceStats → DeviceStats × Option ε) (hs : StoreInv s)
    (hfn : ∀ d : DeviceStats,
      (0 < d.heartbeatCount → d.firstHeartbeat ≤ d.lastHeartbeat) →
      0 < (fn d).1.heartbeatCount → (fn d).1.firstHeartbeat ≤ (fn d).1.lastHeartbeat) :
    StoreInv (WithDevice s id fn).1 := by
  intro id2 d hl hc
  rw [WithDevice_lookup] at hl
  by_cases hid : id2 = id
  · rw [if_pos hid] at hl
    have hd : (fn (recordFor s id)).1 = d := Option.some.inj hl
    subst hd
    apply hfn (recordFor s id) ?_ hc
    unfold recordFor
    cases hrec : lookup s id with
    | some d0 =>
        rw [Option.getD_some]
        exact hs id d0 hrec
    | none =>
        rw [Option.getD_none]
        intro hpos
        exact absurd hpos (by norm_num [NewDeviceStats])
  · rw [if_neg hid] at hl
    exact hs id2 d hl hc

theorem StoreInv_addDevice {s : Store} (i : String) (hs : StoreInv s) :
    StoreInv (addDevice s i) := by
  unfold addDevice
  split_ifs with he
  · exact hs
  · intro id2 d hl hc
    cases h2 : lookup s id2 with
    | some d0 =>
        rw [lookup_append_some _ h2] at hl
        have hd : d0 = d := Option.some.inj hl
        subst hd
        exact hs id2 d0 h2 hc
    | none =>
        rw [lookup_append_none _ h2, lookup_singleton] at hl
        split_ifs at hl with hi
        have hd : NewDeviceStats i = d := Option.some.inj hl
        subst hd
        exact absurd hc (by norm_num [NewDeviceStats])

theorem StoreInv_loadRows (rows : List (List String)) :
    ∀ s : Store, StoreInv s → StoreInv (loadRows s rows) := by
  induction rows with
  | nil => intro s hs; exact hs
  | cons row rows ih =>
      intro s hs
      cases row with
      | nil => exact ih s hs
      | cons i rest => exact ih (addDevice s i) (StoreInv_addDevice i hs)

theorem StoreInv_applyOp (s : Store) (op : Op) (hs : StoreInv s) :
    StoreInv (applyOp s op) := by
  cases op with
  | load rows => exact StoreInv_loadRows rows.tail s hs
  | heartbeat id t =>
      show StoreInv (RecordHeartbeat s id t).1
      unfold RecordHeartbeat
      split_ifs with he
      · exact hs
      · exact StoreInv_WithDevice id _ hs (fun d _ _ => hbUpdate_window t d)
  | stats id t u =>
      show StoreInv (RecordStats s id t u).1
      unfold RecordStats
      split_ifs with h1 h2
      · exact hs
      · exact hs
      · refine StoreInv_WithDevice id _ hs (fun d hP hc => ?_)
        exact hP hc
  | snapshot id => exact hs

/-- C4: every store state reachable by bootstrap loads, heartbeats, upload
reports and snapshots satisfies `firstHeartbeat ≤ lastHeartbeat` for each
record with a positive heartbeat count, and every single operation
preserves that invariant. -/
theorem window_invariant_reachable :
    (∀ (s : Store) (op : Op), StoreInv s → StoreInv (applyOp s op)) ∧
    (∀ ops : List Op, StoreInv (runOps ops)) := by
  refine ⟨StoreInv_applyOp, ?_⟩
  intro ops
  unfold runOps
  have h : ∀ (l : List Op) (s : Store), StoreInv s → StoreInv (l.foldl applyOp s) := by
    intro l
    induction l with
    | nil => intro s hs; exact hs
    | cons op l ih =>
        intro s hs
        exact ih (applyOp s op) (StoreInv_applyOp s op hs)
  exact h ops [] StoreInv_empty

/-- C4 witness: one preservation step on a concrete one-device store. -/
theorem window_invariant_reachable_witness :
    StoreInv (applyOp [("a", NewDeviceStats "a")] (Op.heartbeat "a" 5)) :=
  window_invariant_reachable.1 [("a", NewDeviceStats "a")] (Op.heartbeat "a" 5)
    (by
      intro id d hl hc
      rw [lookup_singleton] at hl
      split_ifs at hl with hi
      have hd : NewDeviceStats "a" = d := Option.some.inj hl
      subst hd
      exact absurd hc (by norm_num [NewDeviceStats]))

/-- C5: `WithDevice` applies the callback to the existing record when one
exists and otherwise to a freshly created zero-valued record keyed by `id`,
stores the callback's record under `id`, and returns exactly the callback's
error (for an arbitrary error type, so it can neither inspect nor replace
it). -/
theorem withDevice_contract {ε : Type} (s : Store) (id : String)
    (fn : DeviceStats → DeviceStats × Option ε) :
    (WithDevice s id fn).2 = (fn (recordFor s id)).2 ∧
    lookup (WithDevice s id fn).1 id = some (fn (recordFor s id)).1 ∧
    (lookup s id = none →
      recordFor s id = NewDeviceStats id ∧
      (NewDeviceStats id).id = id ∧
      (NewDeviceStats id).heartbeatCount = 0 ∧
      (NewDeviceStats id).uploadCount = 0 ∧
      (NewDeviceStats id).uploadSumMs = 0 ∧
      (NewDeviceStats id).firstHeartbeat = 0 ∧
      (NewDeviceStats id).lastHeartbeat = 0) ∧
    (∀ d : DeviceStats, lookup s id = some d → recordFor s id = d) := by
  refine ⟨WithDevice_err s id fn, ?_, ?_, ?_⟩
  · rw [WithDevice_lookup, if_pos rfl]
  · intro h
    unfold recordFor
    rw [h, Option.getD_none]
    exact ⟨rfl, rfl, rfl, rfl, rfl, rfl, rfl⟩
  · intro d h
    unfold recordFor
    rw [h, Option.getD_some]

/-- C5 witness: on the empty store the callback sees the fresh zero record
and its error value comes back unchanged. -/
theorem withDevice_contract_witness :
    (WithDevice ([] : Store) "dev" (fun d => (d, some (7 : Nat)))).2 = some 7 ∧
    recordFor ([] : Store) "dev" = NewDeviceStats "dev" :=
  ⟨(withDevice_contract ([] : Store) "dev" (fun d => (d, some (7 : Nat)))).1,
   ((withDevice_contract ([] : Store) "dev" (fun d => (d, some (7 : Nat)))).2.2.1 rfl).1⟩

/-- C6: `GetSnapshot` fails with the NotFound error exactly when the store
has no record for the identifier (and then carries no snapshot value, being
an `error` result), returns the record when one exists, and `WithDevice` —
the store's only other error-returning operation — never produces
`deviceNotFound` unless its callback does. -/
theorem getSnapshot_notFound_iff (s : Store) (id : String) :
    (GetSnapshot s id = Except.error CoreError.deviceNotFound ↔ lookup s id = none) ∧
    (∀ d, lookup s id = some d → GetSnapshot s id = Except.ok d) ∧
    (∀ fn : DeviceStats → DeviceStats × Option CoreError,
      (∀ d, (fn d).2 ≠ some CoreError.deviceNotFound) →
      (WithDevice s id fn).2 ≠ some CoreError.deviceNotFound) := by
  refine ⟨?_, ?_, ?_⟩
  · unfold GetSnapshot
    cases h : lookup s id with
    | none => simp
    | some d => simp
  · intro d h
    unfold GetSnapshot
    rw [h]
  · intro fn hfn
    rw [WithDevice_err]
    exact hfn (recordFor s id)

/-- C6 witness: a registered identifier snapshots successfully and an
unregistered one returns NotFound. -/
theorem getSnapshot_notFound_iff_witness :
    GetSnapshot [("a", NewDeviceStats "a")] "a" = Except.ok (NewDeviceStats "a") ∧
    GetSnapshot [("a", NewDeviceStats "a")] "b" = Except.error CoreError.deviceNotFound :=
  ⟨(getSnapshot_notFound_iff [("a", NewDeviceStats "a")] "a").2.1 (NewDeviceStats "a")
      (by decide),
   (getSnapshot_notFound_iff [("a", NewDeviceStats "a")] "b").1.mpr (by decide)⟩

/-- C8 counterexample: with an unregistered identifier and a negative upload
duration, `RecordStats` fails with the invalid-input error, not with a
NotFound-class error, because the negative-duration check runs first. -/
theorem notFound_before_store_counterexample :
    existsDevice [] "dev" = false ∧
    (RecordStats [] "dev" 0 (-1)).2 ≠ some CoreError.deviceNotFound ∧
    RecordStats [] "dev" 0 (-1) =
      ([], some (CoreError.fmtError "upload_time must be >= 0")) := by
  refine ⟨rfl, ?_, rfl⟩
  intro h
  cases h

/-- C8 (amended): for an identifier with no record, `RecordHeartbeat` fails
with NotFound leaving the store unchanged, and so does `RecordStats`
provided its upload duration is non-negative; a negative upload duration
makes `RecordStats` fail with the invalid-input error before anything else
(in particular before the existence check), again leaving the store
unchanged. -/
theorem notFound_before_store (s : Store) (id : String) (t u : Int) :
    (existsDevice s id = false →
      RecordHeartbeat s id t = (s, some CoreError.deviceNotFound)) ∧
    (0 ≤ u → existsDevice s id = false →
      RecordStats s id t u = (s, some CoreError.deviceNotFound)) ∧
    (u < 0 →
      RecordStats s id t u = (s, some (CoreError.fmtError "upload_time must be >= 0"))) := by
  refine ⟨?_, ?_, ?_⟩
  · intro h
    unfold RecordHeartbeat
    rw [h]
    rfl
  · intro hu he
    unfold RecordStats
    rw [if_neg (by omega), he]
    rfl
  · intro hu
    unfold RecordStats
    rw [if_pos hu]

/-- C8 witness: both rejections on concrete unregistered identifiers. -/
theorem notFound_before_store_witness :
    RecordHeartbeat [] "x" 3 = ([], some CoreError.deviceNotFound) ∧
    RecordStats [] "x" 3 (-2) =
      ([], some (CoreError.fmtError "upload_time must be >= 0")) :=
  ⟨(notFound_before_store [] "x" 3 0).1 rfl,
   (notFound_before_store [] "x" 3 (-2)).2.2 (by norm_num)⟩

theorem RecordStats_eq_setRecord {s : Store} {id : String} {d : DeviceStats} (t : Int)
    {u : Int} (hd : lookup s id = some d) (hu : 0 ≤ u) :
    RecordStats s id t u = (setRecord s id (statsUpdate u d), none) := by
  unfold RecordStats
  rw [if_neg (by omega), existsDevice_eq_true_of_lookup hd]
  show WithDevice s id _ = _
  unfold WithDevice
  rw [hd]

/-- C10: a successful `RecordStats` call changes only the target device's
`uploadCount` (by one) and `uploadSumMs` (by the reported duration): the
record's other fields keep their values, every other device's record is
untouched, and the `sentAt` argument has no effect on the result at all. -/
theorem recordStats_frame (s : Store) (id : String) (t u : Int) (d : DeviceStats)
    (hd : lookup s id = some d) (hu : 0 ≤ u) :
    (RecordStats s id t u).2 = none ∧
    lookup (RecordStats s id t u).1 id =
      some { d with uploadCount := d.uploadCount + 1,
                    uploadSumMs := d.uploadSumMs + u } ∧
    (∀ id2, id2 ≠ id → lookup (RecordStats s id t u).1 id2 = lookup s id2) ∧
    (∀ t2 : Int, RecordStats s id t2 u = RecordStats s id t u) := by
  have key := RecordStats_eq_setRecord t hd hu
  refine ⟨by rw [key], ?_, ?_, ?_⟩
  · rw [key]
    exact lookup_setRecord_self _ hd
  · intro id2 hne
    rw [key]
    exact lookup_setRecord_ne _ hne
  · intro t2
    rw [key, RecordStats_eq_setRecord t2 hd hu]

/-- C10 witness: a concrete upload report on a one-device store. -/
theorem recordStats_frame_witness :
    lookup (RecordStats [("a", NewDeviceStats "a")] "a" 1 5).1 "a" =
      some { NewDeviceStats "a" with
             uploadCount := (NewDeviceStats "a").uploadCount + 1,
             uploadSumMs := (NewDeviceStats "a").uploadSumMs + 5 } :=
  (recordStats_frame [("a", NewDeviceStats "a")] "a" 1 5 (NewDeviceStats "a")
    (by decide) (by norm_num)).2.1

/-! Bootstrap-load lemmas. -/

theorem lookup_none_iff_not_mem {α : Type} (s : List (String × α)) (id : String) :
    lookup s id = none ↔ id ∉ s.map Prod.fst := by
  induction s with
  | nil => simp [lookup]
  | cons p rest ih =>
      obtain ⟨k, v⟩ := p
      simp only [lookup, List.map_cons, List.mem_cons]
      by_cases hk : k = id
      · simp [hk]
      · simp only [hk, if_false, ih]
        constructor
        · intro h hc
          rcases hc with hc | hc
          · exact hk hc.symm
          · exact h hc
        · intro h hc
          exact h (Or.inr hc)

theorem existsDevice_iff_mem (s : Store) (id : String) :
    existsDevice s id = true ↔ id ∈ s.map Prod.fst := by
  unfold existsDevice
  rw [Option.isSome_iff_ne_none]
  constructor
  · intro h
    by_contra hc
    exact h ((lookup_none_iff_not_mem s id).mpr hc)
  · intro h hc
    exact (lookup_none_iff_not_mem s id).mp hc h

theorem existsDevice_addDevice (s : Store) (i id : String) :
    existsDevice (addDevice s i) id = true ↔ (existsDevice s id = true ∨ id = i) := by
  unfold addDevice
  split_ifs with he
  · constructor
    · exact Or.inl
    · rintro (h | h)
      · exact h
      · subst h
        exact he
  · rw [existsDevice_iff_mem, existsDevice_iff_mem, List.map_append]
    simp [List.mem_append]

theorem lookup_addDevice_shape (s : Store) (i id : String) (d : DeviceStats)
    (h : lookup (addDevice s i) id = some d) :
    lookup s id = some d ∨ d = NewDeviceStats id := by
  unfold addDevice at h
  split_ifs at h with he
  · exact Or.inl h
  · cases h2 : lookup s id with
    | some d0 =>
        rw [lookup_append_some _ h2] at h
        exact Or.inl h
    | none =>
        rw [lookup_append_none _ h2, lookup_singleton] at h
        split_ifs at h with hi
        · subst hi
          exact Or.inr (Option.some.inj h).symm

theorem keys_addDevice_nodup (s : Store) (i : String)
    (h : (s.map Prod.fst).Nodup) : ((addDevice s i).map Prod.fst).Nodup := by
  unfold addDevice
  split_ifs with he
  · exact h
  · rw [List.map_append]
    refine List.nodup_append.mpr ⟨h, List.nodup_singleton i, ?_⟩
    intro a ha hc
    have hai : a = i := by simpa using hc
    subst hai
    have hnone : lookup s a = none := by
      by_contra hc2
      obtain ⟨v, hv⟩ := Option.ne_none_iff_exists.mp hc2
      have : existsDevice s a = true := by simp [existsDevice, hv.symm]
      exact absurd this (by simp [he])
    exact (lookup_none_iff_not_mem s a).mp hnone ha

theorem loadRows_master (rows : List (List String)) :
    ∀ s : Store,
      (∀ id, existsDevice (loadRows s rows) id = true ↔
        (existsDevice s id = true ∨ id ∈ rows.filterMap List.head?)) ∧
      ((s.map Prod.fst).Nodup → ((loadRows s rows).map Prod.fst).Nodup) ∧
      (∀ id d, lookup (loadRows s rows) id = some d →
        lookup s id = some d ∨ d = NewDeviceStats id) := by
  induction rows with
  | nil =>
      intro s
      exact ⟨fun id => by simp [loadRows], fun h => h, fun id d h => Or.inl h⟩
  | cons row rows ih =>
      intro s
      cases row with
      | nil =>
          obtain ⟨h1, h2, h3⟩ := ih s
          refine ⟨fun id => ?_, h2, h3⟩
          rw [show loadRows s ([] :: rows) = loadRows s rows from rfl, h1 id]
          simp [List.filterMap_cons]
      | cons i rest =>
          obtain ⟨h1, h2, h3⟩ := ih (addDevice s i)
          have hstep : loadRows s ((i :: rest) :: rows) = loadRows (addDevice s i) rows := rfl
          refine ⟨fun id => ?_, fun hn => h2 (keys_addDevice_nodup s i hn), fun id d h => ?_⟩
          · rw [hstep, h1 id, existsDevice_addDevice]
            simp only [List.filterMap_cons, List.head?, Option.some.injEq, List.mem_cons]
            tauto
          · rw [hstep] at h
            rcases h3 id d h with h4 | h4
            · exact lookup_addDevice_shape s i id d h4
            · exact Or.inr h4

/-- C9: loading a bootstrap row list into the empty repository skips the
header row, registers a zero-valued record keyed by each remaining row's
first field with duplicates as no-ops, and afterwards the device count is
the number of distinct such identifiers while exactly those identifiers
exist. -/
theorem loadFromCSV_distinct (rows : List (List String)) :
    Count (LoadFromCSV [] rows) = (rows.tail.filterMap List.head?).toFinset.card ∧
    (∀ id, existsDevice (LoadFromCSV [] rows) id = true ↔
      id ∈ rows.tail.filterMap List.head?) ∧
    (∀ id d, lookup (LoadFromCSV [] rows) id = some d → d = NewDeviceStats id) := by
  obtain ⟨h1, h2, h3⟩ := loadRows_master rows.tail []
  have hex : ∀ id, existsDevice (LoadFromCSV [] rows) id = true ↔
      id ∈ rows.tail.filterMap List.head? := by
    intro id
    rw [show LoadFromCSV [] rows = loadRows [] rows.tail from rfl, h1 id]
    have : existsDevice [] id = false := rfl
    simp [this]
  refine ⟨?_, hex, fun id d h => ?_⟩
  · have hnodup : ((LoadFromCSV [] rows).map Prod.fst).Nodup := h2 List.nodup_nil
    have hcount : Count (LoadFromCSV [] rows) =
        ((LoadFromCSV [] rows).map Prod.fst).length := by
      unfold Count
      rw [List.length_map]
    rw [hcount, ← List.toFinset_card_of_nodup hnodup]
    congr 1
    apply Finset.ext
    intro a
    rw [List.mem_toFinset, List.mem_toFinset, ← existsDevice_iff_mem, hex a]
  · rcases h3 id d h with h4 | h4
    · simp [lookup] at h4
    · exact h4

/-- C9 witness: header plus rows a, b, a registers exactly two devices. -/
theorem loadFromCSV_distinct_witness :
    existsDevice (LoadFromCSV [] [["device_id"], ["a"], ["b"], ["a"]]) "a" = true :=
  ((loadFromCSV_distinct [["device_id"], ["a"], ["b"], ["a"]]).2.1 "a").mpr (by decide)

/-! Snapshot decoupling, on the pointer-level model. -/

theorem mem_of_lookup {α : Type} {l : List (String × α)} {id : String} {v : α}
    (h : lookup l id = some v) : (id, v) ∈ l := by
  induction l with
  | nil => simp [lookup] at h
  | cons p rest ih =>
      obtain ⟨k, w⟩ := p
      simp only [lookup] at h
      by_cases hk : k = id
      · rw [if_pos hk] at h
        subst hk
        have hw : w = v := Option.some.inj h
        subst hw
        exact List.mem_cons_self _ _
      · rw [if_neg hk] at h
        exact List.mem_cons_of_mem _ (ih h)

/-- C7: on a well-formed pointer-level repository, `getSnapshot` returns the
address of a freshly allocated copy of the device's record, distinct from
the record's own cell; overwriting the copy with any value leaves the live
record (and the device map) untouched, so a subsequent `getSnapshot` of the
same identifier still returns the original record value. -/
theorem PtrRepo_getSnapshot_eq (r : PtrRepo) (id : String) (addr : Nat) (d : DeviceStats)
    (h1 : lookup r.devices id = some addr) (h2 : r.heap[addr]? = some d) :
    r.getSnapshot id = (⟨r.heap ++ [d], r.devices⟩, Except.ok r.heap.length) := by
  simp [PtrRepo.getSnapshot, h1, h2]

theorem snapshot_decoupled (r : PtrRepo) (id : String) (addr : Nat)
    (hwf : r.WF) (h : lookup r.devices id = some addr) :
    ∃ d : DeviceStats,
      r.heap[addr]? = some d ∧
      r.getSnapshot id = (⟨r.heap ++ [d], r.devices⟩, Except.ok r.heap.length) ∧
      r.heap.length ≠ addr ∧
      ∀ v : DeviceStats,
        ((r.getSnapshot id).1.writeCell r.heap.length v).heap[addr]? = some d ∧
        lookup ((r.getSnapshot id).1.writeCell r.heap.length v).devices id = some addr ∧
        ∃ (r3 : PtrRepo) (a3 : Nat),
          ((r.getSnapshot id).1.writeCell r.heap.length v).getSnapshot id =
            (r3, Except.ok a3) ∧
          r3.heap[a3]? = some d := by
  have haddr : addr < r.heap.length := hwf (id, addr) (mem_of_lookup h)
  obtain ⟨d, hd⟩ : ∃ d, r.heap[addr]? = some d := ⟨_, List.getElem?_eq_getElem haddr⟩
  have hsnap : r.getSnapshot id = (⟨r.heap ++ [d], r.devices⟩, Except.ok r.heap.length) :=
    PtrRepo_getSnapshot_eq r id addr d h hd
  refine ⟨d, hd, hsnap, by omega, fun v => ?_⟩
  have hr2heap : ((r.getSnapshot id).1.writeCell r.heap.length v).heap = r.heap ++ [v] := by
    rw [hsnap]
    show (r.heap ++ [d]).set r.heap.length v = r.heap ++ [v]
    rw [List.set_append_right]
    · simp
    · omega
  have hr2dev : ((r.getSnapshot id).1.writeCell r.heap.length v).devices = r.devices := by
    rw [hsnap]
    rfl
  have hread : ((r.getSnapshot id).1.writeCell r.heap.length v).heap[addr]? = some d := by
    rw [hr2heap, List.getElem?_append, if_pos haddr]
    exact hd
  refine ⟨hread, by rw [hr2dev]; exact h, ?_⟩
  refine ⟨⟨((r.getSnapshot id).1.writeCell r.heap.length v).heap ++ [d],
           ((r.getSnapshot id).1.writeCell r.heap.length v).devices⟩,
         ((r.getSnapshot id).1.writeCell r.heap.length v).heap.length, ?_, ?_⟩
  · exact PtrRepo_getSnapshot_eq _ id addr d (by rw [hr2dev]; exact h) hread
  · exact List.getElem?_concat_length _ d

/-- C7 witness: a concrete one-device repository; its record cell survives a
write through the snapshot pointer. -/
theorem snapshot_decoupled_witness :
    ∃ d : DeviceStats,
      (PtrRepo.mk [NewDeviceStats "a"] [("a", 0)]).heap[(0 : Nat)]? = some d ∧
      (PtrRepo.mk [NewDeviceStats "a"] [("a", 0)]).getSnapshot "a" =
        (⟨[NewDeviceStats "a"] ++ [d], [("a", 0)]⟩, Except.ok 1) ∧
      (1 : Nat) ≠ 0 ∧
      ∀ v : DeviceStats,
        (((PtrRepo.mk [NewDeviceStats "a"] [("a", 0)]).getSnapshot "a").1.writeCell 1 v).heap[(0 : Nat)]? = some d ∧
        lookup (((PtrRepo.mk [NewDeviceStats "a"] [("a", 0)]).getSnapshot "a").1.writeCell 1 v).devices "a" = some 0 ∧
        ∃ (r3 : PtrRepo) (a3 : Nat),
          (((PtrRepo.mk [NewDeviceStats "a"] [("a", 0)]).getSnapshot "a").1.writeCell 1 v).getSnapshot "a" =
            (r3, Except.ok a3) ∧
          r3.heap[a3]? = some d :=
  snapshot_decoupled (PtrRepo.mk [NewDeviceStats "a"] [("a", 0)]) "a" 0
    (by
      intro p hp
      simp only [List.mem_singleton] at hp
      subst hp
      norm_num)
    (by decide)

end SafelyYou
